import Mathlib

/-!
Verification of the MyPropMate payment reconciliation engine.

This file is a shallow embedding of the Python source under
`backend/app/` into Lean 4:

* `gmail_watcher.GmailWatcher._parse_interac_email` and helpers
  (regex extraction is modelled by faithful recursive matchers over
  `List Char`, reproducing Python `re` semantics — leftmost search,
  greedy/lazy quantifier backtracking, `IGNORECASE` on ASCII letters);
* `payment_processor.PaymentProcessor` (`_process_single_payment`,
  `process_new_payments`, `_determine_period`, `_bump_month`);
* `db.supabase.SupabaseClient` (the tables become explicit list state;
  the PostgreSQL `ILIKE` operator used by `get_tenant_by_name` is
  modelled with its wildcard semantics, including PostgREST's rewrite
  of `*` to `%` in `ilike` filter values).

Currency amounts (Python floats holding two-decimal currency values)
are modelled as exact rationals `ℚ`; every claim-relevant comparison
agrees with IEEE double evaluation at the cited inputs.
Calendar values are modelled by a plain `year/month/day` record;
`date.today()` is passed explicitly where the source calls it.
-/

set_option maxRecDepth 20000

namespace MyPropMate

/-! Character-level utilities mirroring Python string/regex semantics. -/

/-- Python `\s` (ASCII range): space, tab, newline, carriage return,
vertical tab, form feed. -/
def isWs (c : Char) : Bool :=
  c == ' ' || c == '\t' || c == '\n' || c == '\r' ||
  c == Char.ofNat 11 || c == Char.ofNat 12

def isDigit (c : Char) : Bool := '0' ≤ c && c ≤ '9'

def isAlpha (c : Char) : Bool :=
  ('a' ≤ c && c ≤ 'z') || ('A' ≤ c && c ≤ 'Z')

def asciiLower (c : Char) : Char :=
  if 'A' ≤ c && c ≤ 'Z' then Char.ofNat (c.toNat + 32) else c

def asciiUpper (c : Char) : Char :=
  if 'a' ≤ c && c ≤ 'z' then Char.ofNat (c.toNat - 32) else c

/-- Case-insensitive match of a literal pattern at the head of the
input; returns the remaining input on success (regex `IGNORECASE`). -/
def matchCI : List Char → List Char → Option (List Char)
  | [], l => some l
  | _ :: _, [] => none
  | p :: ps, c :: cs =>
      if asciiLower p == asciiLower c then matchCI ps cs else none

/-- Leftmost search: try the matcher at every start position in order,
exactly as `re.search` does. -/
def searchPos {α : Type} (f : List Char → Option α) : List Char → Option α
  | [] => f []
  | c :: rest =>
      match f (c :: rest) with
      | some r => some r
      | none => searchPos f rest

/-- Python `str.strip()` restricted to the ASCII whitespace set. -/
def trimWs (l : List Char) : List Char :=
  ((l.dropWhile isWs).reverse.dropWhile isWs).reverse

/-- Helper for `re.sub(r'\s+', ' ', s)`: the boolean records whether the
previous character was part of a whitespace run already emitted. -/
def collapseWs : List Char → Bool → List Char
  | [], _ => []
  | c :: rest, prevWs =>
      if isWs c then
        if prevWs then collapseWs rest true
        else ' ' :: collapseWs rest true
      else c :: collapseWs rest false

/-- Scan for the first `'>'`; used by the HTML-tag stripper. -/
def gtScan : List Char → Option (List Char)
  | [] => none
  | c :: rest => if c == '>' then some rest else gtScan rest

/-- Match `[^>]+>` at the head: at least one non-`'>'` character and then
a closing `'>'`; returns what follows the `'>'`. -/
def splitTag : List Char → Option (List Char)
  | [] => none
  | c :: rest => if c == '>' then none else gtScan rest

theorem gtScan_length : ∀ l after, gtScan l = some after → after.length < l.length := by
  intro l
  induction l with
  | nil => intro a h; simp [gtScan] at h
  | cons c rest ih =>
      intro a h
      simp only [gtScan] at h
      by_cases hc : c == '>'
      · simp [hc] at h; simp [← h]
      · simp [hc] at h
        exact Nat.lt_succ_of_lt (ih a h)

theorem splitTag_length : ∀ l after, splitTag l = some after → after.length < l.length := by
  intro l a h
  cases l with
  | nil => simp [splitTag] at h
  | cons c rest =>
      simp only [splitTag] at h
      by_cases hc : c == '>'
      · simp [hc] at h
      · simp [hc] at h
        exact Nat.lt_succ_of_lt (gtScan_length rest a h)

/-- Python `re.sub(r'<[^>]+>', ' ', body)`: each tag is replaced by a
single space; a `'<'` that never closes (or closes immediately) stays. -/
def stripTags (l : List Char) : List Char :=
  match l with
  | [] => []
  | c :: rest =>
      if c == '<' then
        match h : splitTag rest with
        | some after => ' ' :: stripTags after
        | none => '<' :: stripTags rest
      else c :: stripTags rest
termination_by l.length
decreasing_by
  · exact Nat.lt_succ_of_lt (splitTag_length rest after h)
  · exact Nat.lt_succ_self rest.length
  · exact Nat.lt_succ_self rest.length

/-- The canonicalized body: strip markup, collapse whitespace runs to
single spaces, trim (`_parse_interac_email`, body cleaning). -/
def canonicalizeBody (body : String) : List Char :=
  trimWs (collapseWs (stripTags body.data) false)

/-! Amount extraction from the subject:
`re.search(r"You've received \$([0-9,]+\.[0-9]{2})", subject, re.IGNORECASE)`
followed by `float(group(1).replace(',', ''))`. -/

def isDigitComma (c : Char) : Bool := isDigit c || c == ','

def digitVal (c : Char) : Nat := c.toNat - '0'.toNat

def natOfDigits (l : List Char) : Nat :=
  l.foldl (fun acc c => 10 * acc + digitVal c) 0

/-- Numeric value of the captured group `[0-9,]+\.[0-9]{2}` after the
commas are stripped: integer part plus a two-digit fraction. -/
def ratOfParts (intPart : List Char) (d1 d2 : Char) : ℚ :=
  (natOfDigits (intPart.filter isDigit) : ℚ) +
    ((10 * digitVal d1 + digitVal d2 : ℕ) : ℚ) / 100

/-- Try the full amount pattern at one position.  The run `[0-9,]+` is
greedy and cannot backtrack into `\.` (the classes are disjoint), so it
is exactly the maximal digit-or-comma run, which must be followed by a
dot and two digits. -/
def amountAt (l : List Char) : Option ℚ :=
  (matchCI "you've received $".data l).bind fun r =>
    let run := r.takeWhile isDigitComma
    if run.isEmpty then none
    else
      match r.dropWhile isDigitComma with
      | '.' :: d1 :: d2 :: _ =>
          if isDigit d1 && isDigit d2 then some (ratOfParts run d1 d2) else none
      | _ => none

def searchAmount (subject : List Char) : Option ℚ :=
  searchPos amountAt subject

/-! Sender extraction from the subject:
`re.search(r'from\s+(.+)$', subject, re.IGNORECASE)`. -/

/-- Match `(.+)$` against the rest of the string: a non-empty run of
non-newline characters reaching either the end of the string or the
position just before a single trailing newline. -/
def dotPlusDollar (r : List Char) : Option (List Char) :=
  if r.isEmpty then none
  else if r.contains '\n' then
    if r.getLast? == some '\n' && !(r.dropLast.contains '\n') && !r.dropLast.isEmpty
    then some r.dropLast
    else none
  else some r

/-- Backtracking for greedy `\s+`: try giving it `j` characters, largest
first, and hand the remainder to `(.+)$`. -/
def tryWs : Nat → List Char → Option (List Char)
  | 0, _ => none
  | j + 1, u =>
      match dotPlusDollar (u.drop (j + 1)) with
      | some g => some g
      | none => tryWs j u

def fromAt (l : List Char) : Option (List Char) :=
  (matchCI "from".data l).bind fun u =>
    tryWs (u.takeWhile isWs).length u

def searchFrom (subject : List Char) : Option (List Char) :=
  searchPos fromAt subject

/-- Python `str.capitalize()`: first character upper-cased, the rest
lower-cased (ASCII model). -/
def pyCapitalize : List Char → List Char
  | [] => []
  | c :: rest => asciiUpper c :: rest.map asciiLower

/-- Python `str.split()` (no argument): split on whitespace runs,
discarding empty pieces; `acc` holds the current word reversed. -/
def splitWsGo : List Char → List Char → List (List Char)
  | [], acc => if acc.isEmpty then [] else [acc.reverse]
  | c :: rest, acc =>
      if isWs c then
        if acc.isEmpty then splitWsGo rest []
        else acc.reverse :: splitWsGo rest []
      else splitWsGo rest (c :: acc)

def pySplit (l : List Char) : List (List Char) := splitWsGo l []

/-- `' '.join(word.capitalize() for word in name.split())`. -/
def titleCase (l : List Char) : List Char :=
  List.intercalate [' '] ((pySplit l).map pyCapitalize)

/-! Message-line extraction from the canonicalized body:
`re.search(r'Message:\s*([^D]+?)\s*(?:Date:|Reference|Sent From:|Amount:)', body_clean, re.IGNORECASE)`.
Note `[^D]` under `IGNORECASE` matches neither `'D'` nor `'d'`. -/

/-- Character class `[^D]` compiled with `re.IGNORECASE`. -/
def isDCi (c : Char) : Bool := asciiLower c == 'd'

/-- One of the stop alternatives `Date:|Reference|Sent From:|Amount:`
matches at the head (case-insensitively). -/
def stopHere (r : List Char) : Bool :=
  (matchCI "date:".data r).isSome || (matchCI "reference".data r).isSome ||
  (matchCI "sent from:".data r).isSome || (matchCI "amount:".data r).isSome

/-- `\s*(?:Date:|Reference|Sent From:|Amount:)` matches at the head for
some amount of leading whitespace consumed. -/
def stopAfterWs : List Char → Bool
  | [] => stopHere []
  | c :: rest => stopHere (c :: rest) || (isWs c && stopAfterWs rest)

/-- The lazy group `([^D]+?)` followed by `\s*(?:stop)`: take the
shortest non-empty run of non-`d`/`D` characters after which a stop
alternative matches (possibly across whitespace). -/
def grp : List Char → Option (List Char)
  | [] => none
  | c :: rest =>
      if isDCi c then none
      else if stopAfterWs rest then some [c]
      else (grp rest).map (c :: ·)

/-- Backtracking for the first (greedy) `\s*` in the message pattern:
give it `j` characters, largest first, then run the lazy group. -/
def tryMsgWs : Nat → List Char → Option (List Char)
  | 0, t => grp t
  | j + 1, t =>
      match grp (t.drop (j + 1)) with
      | some g => some g
      | none => tryMsgWs j t

def msgAt (l : List Char) : Option (List Char) :=
  (matchCI "message:".data l).bind fun t =>
    tryMsgWs (t.takeWhile isWs).length t

def searchMessage (bodyClean : List Char) : Option (List Char) :=
  searchPos msgAt bodyClean

/-- `msg_match.group(1).strip() if msg_match else None`, on the
canonicalized body. -/
def extractMessageLine (bodyClean : List Char) : Option String :=
  (searchMessage bodyClean).map (fun g => String.mk (trimWs g))

/-! Payment-date extraction from the canonicalized body:
`re.search(r'Date:\s*([A-Za-z]{3,}\s*\d{1,2},\s*\d{4})', body_clean, re.IGNORECASE)`
followed by `datetime.strptime(group(1), '%B %d, %Y')`, retried with
`'%b %d, %Y'`, with the email date as final fallback. -/

/-- A calendar date; stands for the Python `datetime.date`. -/
structure PDate where
  year : Nat
  month : Nat
  day : Nat
deriving DecidableEq, Repr

/-- Try the date group pattern at one position; returns the captured
group text.  All adjacent subpatterns use disjoint character classes,
so the greedy quantifiers reduce to maximal runs; `\d{1,2}` backtracks
from two digits to one to find the literal comma. -/
def dateAt (l : List Char) : Option (List Char) :=
  (matchCI "date:".data l).bind fun t =>
    let t1 := t.dropWhile isWs
    let alpha := t1.takeWhile isAlpha
    if alpha.length < 3 then none
    else
      let t2 := t1.dropWhile isAlpha
      let ws1 := t2.takeWhile isWs
      let t3 := t2.dropWhile isWs
      let day2 : Option (List Char × List Char) :=
        match t3 with
        | a :: b :: ',' :: r => if isDigit a && isDigit b then some ([a, b], r) else none
        | _ => none
      let day1 : Option (List Char × List Char) :=
        match t3 with
        | a :: ',' :: r => if isDigit a then some ([a], r) else none
        | _ => none
      match day2.orElse (fun _ => day1) with
      | none => none
      | some (dayDigits, afterComma) =>
          let ws2 := afterComma.takeWhile isWs
          let t4 := afterComma.dropWhile isWs
          let yearDigits := t4.takeWhile isDigit
          if yearDigits.length < 4 then none
          else some (alpha ++ ws1 ++ dayDigits ++ [','] ++ ws2 ++ yearDigits.take 4)

def searchDateGroup (bodyClean : List Char) : Option (List Char) :=
  searchPos dateAt bodyClean

def monthNamesFull : List (String × Nat) :=
  [("january", 1), ("february", 2), ("march", 3), ("april", 4),
   ("may", 5), ("june", 6), ("july", 7), ("august", 8),
   ("september", 9), ("october", 10), ("november", 11), ("december", 12)]

def monthNamesAbbr : List (String × Nat) :=
  [("jan", 1), ("feb", 2), ("mar", 3), ("apr", 4), ("may", 5), ("jun", 6),
   ("jul", 7), ("aug", 8), ("sep", 9), ("oct", 10), ("nov", 11), ("dec", 12)]

/-- Match one month name from the table (case-insensitively) at the
head, returning its number and the rest. -/
def pMonth (names : List (String × Nat)) (l : List Char) : Option (Nat × List Char) :=
  match names with
  | [] => none
  | (nm, v) :: rest =>
      match matchCI nm.data l with
      | some r => some (v, r)
      | none => pMonth rest l

/-- Literal whitespace in a `strptime` format: `\s+`, consumed greedily. -/
def pWsPlus (l : List Char) : Option (List Char) :=
  match l with
  | c :: rest => if isWs c then some (rest.dropWhile isWs) else none
  | [] => none

/-- `strptime` directive `%d`: `(3[01]|[12]\d|0[1-9]|[1-9])` with
backtracking against the following literal comma. -/
def pDayComma (l : List Char) : Option (Nat × List Char) :=
  match l with
  | a :: b :: ',' :: r =>
      if isDigit a && isDigit b && 1 ≤ 10 * digitVal a + digitVal b &&
         10 * digitVal a + digitVal b ≤ 31
      then some (10 * digitVal a + digitVal b, r)
      else none
  | a :: ',' :: r =>
      if isDigit a && 1 ≤ digitVal a then some (digitVal a, r) else none
  | _ => none

def daysInMonth (y m : Nat) : Nat :=
  if m == 2 then
    if (y % 4 == 0 && y % 100 != 0) || y % 400 == 0 then 29 else 28
  else if m == 4 || m == 6 || m == 9 || m == 11 then 30
  else 31

/-- `datetime.strptime(s, '<month directive> %d, %Y')` requiring the
whole string to be consumed, then `date` construction validation. -/
def pyStrptimeMonthDayYear (names : List (String × Nat)) (s : List Char) : Option PDate :=
  (pMonth names s).bind fun (m, r1) =>
    (pWsPlus r1).bind fun r2 =>
      (pDayComma r2).bind fun (d, r3) =>
        (pWsPlus r3).bind fun r4 =>
          match r4 with
          | y1 :: y2 :: y3 :: y4 :: rest =>
              if isDigit y1 && isDigit y2 && isDigit y3 && isDigit y4 && rest.isEmpty then
                let y := natOfDigits [y1, y2, y3, y4]
                if 1 ≤ y && 1 ≤ m && m ≤ 12 && 1 ≤ d && d ≤ daysInMonth y m
                then some ⟨y, m, d⟩ else none
              else none
          | _ => none

/-- The full date-extraction pipeline of `_parse_interac_email`:
regex capture, `%B` parse, `%b` retry, email-date fallback. -/
def extractPaymentDate (bodyClean : List Char) (email_date : PDate) : PDate :=
  match searchDateGroup bodyClean with
  | none => email_date
  | some g =>
      match pyStrptimeMonthDayYear monthNamesFull g with
      | some d => d
      | none =>
          match pyStrptimeMonthDayYear monthNamesAbbr g with
          | some d => d
          | none => email_date

/-! The parser: `GmailWatcher._parse_interac_email`. -/

/-- Shallow embedding of the Pydantic `ParsedInteracEmail` model.
The received timestamp's date component is what the source keeps
(`email_date.date()`), so `email_date` is passed as a `PDate`. -/
structure ParsedInteracEmail where
  email_id : String
  sender_name : String
  amount : ℚ
  payment_date : PDate
  message_line : Option String
  raw_subject : String
deriving DecidableEq, Repr

/-- `GmailWatcher._parse_interac_email(message_id, subject, body, email_date)`. -/
def parse_interac_email (message_id subject body : String) (email_date : PDate) :
    Option ParsedInteracEmail :=
  let bodyClean := canonicalizeBody body
  match searchAmount subject.data with
  | none => none
  | some amount =>
      match searchFrom subject.data with
      | none => none
      | some g =>
          some { email_id := message_id
                 sender_name := String.mk (titleCase (trimWs g))
                 amount := amount
                 payment_date := extractPaymentDate bodyClean email_date
                 message_line := extractMessageLine bodyClean
                 raw_subject := subject }

/-! Exact (case-sensitive) matching and substring removal, for Python
`str.replace(old, '')`. -/

def matchExact : List Char → List Char → Option (List Char)
  | [], l => some l
  | _ :: _, [] => none
  | p :: ps, c :: cs => if p == c then matchExact ps cs else none

theorem matchExact_length :
    ∀ pat l after, matchExact pat l = some after → after.length + pat.length = l.length := by
  intro pat
  induction pat with
  | nil => intro l after h; simp [matchExact] at h; simp [h]
  | cons p ps ih =>
      intro l after h
      cases l with
      | nil => simp [matchExact] at h
      | cons c cs =>
          simp only [matchExact] at h
          by_cases hc : p == c
          · simp [hc] at h
            have := ih cs after h
            simp [List.length_cons]
            omega
          · simp [hc] at h

/-- Python `s.replace(old, '')`: remove leftmost non-overlapping
occurrences of `pat` (for an empty `pat` this is the identity, matching
`replace('', '')`). -/
def replaceSub (pat : List Char) (l : List Char) : List Char :=
  match l with
  | [] => []
  | c :: rest =>
      if hp : pat.isEmpty then c :: replaceSub pat rest
      else
        match h : matchExact pat (c :: rest) with
        | some after => replaceSub pat after
        | none => c :: replaceSub pat rest
termination_by l.length
decreasing_by
  all_goals try exact Nat.lt_succ_self rest.length
  all_goals
    (have hlen := matchExact_length pat (c :: rest) after h
     have hpat : 0 < pat.length := by
       cases pat with
       | nil => simp [List.isEmpty] at hp
       | cons a b => simp
     simp only [List.length_cons] at hlen ⊢
     omega)

/-! The tenant store (`db/supabase.py`).  Tables become explicit list
state.  `get_tenant_by_name` issues `.ilike("name", name)`, which goes
through PostgREST to PostgreSQL as `<stored name> ILIKE <sender name>`:
PostgREST first rewrites every `*` in the filter value to `%`, and the
resulting pattern is matched case-insensitively with `%` and `_` as
wildcards and `\` as escape.  (A pattern ending in a lone `\` raises an
error in PostgreSQL; it is modelled as a non-match, and no claim
depends on it.) -/

def eqCI (a b : Char) : Bool := asciiLower a == asciiLower b

def ilikeMatch (p t : List Char) : Bool :=
  match p with
  | [] => t.isEmpty
  | c :: ps =>
      if c == '%' then
        ilikeMatch ps t ||
          (if h : t.isEmpty then false else ilikeMatch (c :: ps) t.tail)
      else if c == '\\' then
        match ps with
        | [] => false
        | e :: ps' =>
            match t with
            | [] => false
            | a :: ts => eqCI e a && ilikeMatch ps' ts
      else
        match t with
        | [] => false
        | a :: ts => (c == '_' || eqCI c a) && ilikeMatch ps ts
termination_by p.length + t.length
decreasing_by
  · simp_arith
  · have ht : t.length ≠ 0 := by
      cases t with
      | nil => simp [List.isEmpty] at h
      | cons x xs => simp
    cases t with
    | nil => simp at ht
    | cons x xs => simp_arith
  · simp_arith [List.length_cons]
  · simp_arith [List.length_cons]

/-- A row of the `tenants` table, restricted to the columns the payment
flow reads.  Optional columns are `Option`; `parking_fee` and
`last_invoice_no` go through Python `.get(...) or 0`, `next_due_month`
through truthiness tests. -/
structure Tenant where
  id : String
  name : String
  email : String
  monthly_rent : ℚ
  parking_fee : Option ℚ
  next_due_month : Option String
  last_invoice_no : Option Nat
  invoice_ninja_client_id : Option String
deriving DecidableEq, Repr

/-- A row of the `payments` table. -/
structure PaymentRecord where
  id : Nat
  tenant_id : String
  amount : ℚ
  payment_date : PDate
  period : String
  email_id : Option String
  invoice_ninja_invoice_id : Option String
  email_sent : Bool
  notes : String
deriving DecidableEq, Repr

structure DBState where
  tenants : List Tenant
  payments : List PaymentRecord
deriving DecidableEq, Repr

/-- `SupabaseClient.check_duplicate_payment`: any payment row with this
`email_id`. -/
def check_duplicate_payment (db : DBState) (email_id : String) : Bool :=
  db.payments.any (fun r => r.email_id == some email_id)

/-- PostgREST's rewrite of `ilike` filter values: every `*` becomes
`%` before the pattern reaches PostgreSQL. -/
def postgrestStar (l : List Char) : List Char :=
  l.map fun c => if c == '*' then '%' else c

/-- `SupabaseClient.get_tenant_by_name`: first row whose stored name
satisfies `name ILIKE <sender name>`, with PostgREST's `*`-to-`%`
rewrite applied to the sender name. -/
def get_tenant_by_name (db : DBState) (name : String) : Option Tenant :=
  db.tenants.find? (fun t => ilikeMatch (postgrestStar name.data) t.name.data)

/-- `SupabaseClient.create_payment`: insert a row (fresh id modelled as
the row count), `status="completed"`, `email_sent=False`. -/
def create_payment (db : DBState) (tenant_id : String) (amount : ℚ)
    (payment_date : PDate) (period : String) (email_id : Option String)
    (invoice_ninja_invoice_id : Option String) (notes : String) :
    PaymentRecord × DBState :=
  let rec_ : PaymentRecord :=
    { id := db.payments.length, tenant_id := tenant_id, amount := amount
      payment_date := payment_date, period := period, email_id := email_id
      invoice_ninja_invoice_id := invoice_ninja_invoice_id
      email_sent := false, notes := notes }
  (rec_, { db with payments := db.payments ++ [rec_] })

/-- `SupabaseClient.update_tenant_after_payment`: set the two ledger
fields on the matching tenant row, and the Invoice Ninja client id only
when truthy. -/
def update_tenant_after_payment (db : DBState) (tenant_id : String)
    (new_invoice_no : Nat) (new_next_due : String)
    (invoice_ninja_client_id : Option String) : DBState :=
  { db with
    tenants := db.tenants.map fun t =>
      if t.id == tenant_id then
        { t with
          last_invoice_no := some new_invoice_no
          next_due_month := some new_next_due
          invoice_ninja_client_id :=
            match invoice_ninja_client_id with
            | some c => if c.isEmpty then t.invoice_ninja_client_id else some c
            | none => t.invoice_ninja_client_id }
      else t }

/-- `SupabaseClient.mark_payment_emailed`. -/
def mark_payment_emailed (db : DBState) (payment_id : Nat) : DBState :=
  { db with
    payments := db.payments.map fun r =>
      if r.id == payment_id then { r with email_sent := true } else r }

/-! Period and month helpers (`PaymentProcessor._determine_period`,
`PaymentProcessor._bump_month`). -/

/-- `strftime('%B')`: capitalized full month name (empty for an
out-of-range month, which cannot arise from a validated `date`). -/
def monthNameCap : Nat → String
  | 1 => "January" | 2 => "February" | 3 => "March" | 4 => "April"
  | 5 => "May" | 6 => "June" | 7 => "July" | 8 => "August"
  | 9 => "September" | 10 => "October" | 11 => "November" | 12 => "December"
  | _ => ""

def pad2 (n : Nat) : String := if n < 10 then "0" ++ toString n else toString n

/-- `strftime("%B %Y")`. -/
def fmtMonthYear (d : PDate) : String :=
  monthNameCap d.month ++ " " ++ toString d.year

/-- `strftime("%Y-%m")`. -/
def fmtYM (d : PDate) : String := toString d.year ++ "-" ++ pad2 d.month

/-- `relativedelta(months=1)` applied to the first of a month. -/
def addMonth (d : PDate) : PDate :=
  if d.month == 12 then ⟨d.year + 1, 1, 1⟩ else ⟨d.year, d.month + 1, 1⟩

def digitsValNat (l : List Char) : Option Nat :=
  if !l.isEmpty && l.all isDigit then some (natOfDigits l) else none

/-- Python `int(str)`: strip whitespace, optional sign, decimal digits
(underscore grouping is not modelled; no input here contains it). -/
def pyInt (s : String) : Option Int :=
  match trimWs s.data with
  | '-' :: ds => (digitsValNat ds).map (fun n => -(n : Int))
  | '+' :: ds => (digitsValNat ds).map (fun n => (n : Int))
  | ds => (digitsValNat ds).map (fun n => (n : Int))

/-- The shared `year, month = s.split("-"); date(int(year), int(month), 1)`
step: exactly two dash-separated parts, both `int()`-parseable, within
`datetime.date`'s valid range — anything else raises and is caught. -/
def ymParse (s : String) : Option (Nat × Nat) :=
  match s.splitOn "-" with
  | [ys, ms] =>
      (pyInt ys).bind fun y =>
        (pyInt ms).bind fun m =>
          if 1 ≤ y && y ≤ 9999 && 1 ≤ m && m ≤ 12
          then some (y.toNat, m.toNat) else none
  | _ => none

/-- `PaymentProcessor._determine_period(payment, tenant)`. -/
def determine_period (payment : ParsedInteracEmail) (tenant : Tenant) : String :=
  let fromPaymentDate := fmtMonthYear payment.payment_date
  let fromNextDue :=
    match tenant.next_due_month with
    | some nd =>
        if !nd.isEmpty then
          match ymParse nd with
          | some (y, m) => fmtMonthYear ⟨y, m, 1⟩
          | none => fromPaymentDate
        else fromPaymentDate
    | none => fromPaymentDate
  match payment.message_line with
  | some msg =>
      if !msg.isEmpty then
        let period := String.mk (trimWs (replaceSub "Rent".data (replaceSub "rent".data msg.data)))
        if !period.isEmpty then period else fromNextDue
      else fromNextDue
  | none => fromNextDue

/-- `PaymentProcessor._bump_month(year_month)`; `date.today()` is the
explicit `today` argument. -/
def bump_month (today : PDate) (year_month : Option String) : String :=
  match year_month with
  | none => fmtYM (addMonth today)
  | some ym =>
      if ym.isEmpty then fmtYM (addMonth today)
      else
        match ymParse ym with
        | some (y, m) => fmtYM (addMonth ⟨y, m, 1⟩)
        | none => fmtYM (addMonth today)

/-! The reconciliation workflow (`PaymentProcessor`). -/

/-- `f"{x:.2f}"` for the rationals appearing in error messages.  The
decimal rendering of a rational that is not a multiple of 1/100 is
rounded half-up here; no claim depends on message text. -/
def fmtQ2 (q : ℚ) : String :=
  let c : ℤ := ⌊q * 100 + 1 / 2⌋
  let sign := if c < 0 then "-" else ""
  let a := c.natAbs
  sign ++ toString (a / 100) ++ "." ++ pad2 (a % 100)

/-- `AMOUNT_TOLERANCE = 0.01`. -/
def AMOUNT_TOLERANCE : ℚ := 1 / 100

/-- The dictionary returned by `create_and_send_invoice`, restricted to
the keys `_process_single_payment` reads via `.get`. -/
structure InvoiceResult where
  client_id : Option String
  invoice_id : Option String
  invoice_number : Option String
deriving DecidableEq, Repr

/-- The external invoicing collaborator (`InvoiceNinjaClient
.create_and_send_invoice`): either returns a result dictionary or
raises.  `invoice_ninja.py` never raises the processor's
`ValidationError`, so any exception from it is a generic one. -/
def NinjaOracle : Type :=
  Tenant → ℚ → String → PDate → Except String InvoiceResult

/-- Result of `_process_single_payment`: the returned dictionary
(`skipped`/`success`), a raised `ValidationError`, or a raised generic
exception. -/
inductive SingleOutcome where
  | skipped (reason : String) (email_id : String)
  | success (tenant : String) (amount : ℚ) (period : String)
      (invoice_number : Option String) (payment_id : Nat)
  | validationError (msg : String)
  | unexpectedError (msg : String)
deriving DecidableEq, Repr

def SingleOutcome.isValidationError : SingleOutcome → Bool
  | .validationError _ => true
  | _ => false

/-- `PaymentProcessor._process_single_payment(payment)` together with
its database side effects. -/
def process_single_payment (ninja : NinjaOracle) (today : PDate)
    (db : DBState) (payment : ParsedInteracEmail) : SingleOutcome × DBState :=
  if check_duplicate_payment db payment.email_id then
    (.skipped "duplicate" payment.email_id, db)
  else
    match get_tenant_by_name db payment.sender_name with
    | none =>
        (.validationError ("Tenant not found in database: " ++ payment.sender_name), db)
    | some tenant =>
        let monthly_rent := tenant.monthly_rent
        let parking_fee := (tenant.parking_fee.getD 0)
        let expected_amount := monthly_rent + parking_fee
        if |payment.amount - expected_amount| > AMOUNT_TOLERANCE then
          (.validationError
            ("Amount mismatch: received $" ++ fmtQ2 payment.amount ++
             ", expected $" ++ fmtQ2 expected_amount ++
             " (rent: $" ++ fmtQ2 monthly_rent ++
             " + parking: $" ++ fmtQ2 parking_fee ++ ")"), db)
        else
          let period := determine_period payment tenant
          match ninja tenant payment.amount period payment.payment_date with
          | .error e => (.unexpectedError e, db)
          | .ok invoice_result =>
              let last_invoice_no := tenant.last_invoice_no.getD 0
              let new_invoice_no := last_invoice_no + 1
              let new_next_due := bump_month today tenant.next_due_month
              let (db_payment, db1) :=
                create_payment db tenant.id payment.amount payment.payment_date
                  period (some payment.email_id) invoice_result.invoice_id
                  ("Auto-processed from email. Message: " ++
                    (match payment.message_line with
                     | some m => if m.isEmpty then "N/A" else m
                     | none => "N/A"))
              let db2 :=
                update_tenant_after_payment db1 tenant.id new_invoice_no
                  new_next_due invoice_result.client_id
              let db3 := mark_payment_emailed db2 db_payment.id
              (.success tenant.name payment.amount period
                invoice_result.invoice_number db_payment.id, db3)

/-- One per-item error entry of `results["errors"]`; the generic
handler's entry carries no amount key. -/
structure ErrorInfo where
  email_id : Option String
  sender : Option String
  amount : Option ℚ
  error : String
deriving DecidableEq, Repr

/-- The summary dictionary built by `process_new_payments`. -/
structure BatchResults where
  processed : List SingleOutcome
  errors : List ErrorInfo
  skipped : List SingleOutcome
deriving DecidableEq, Repr

/-- State of the external mailbox: which emails carry the processed
label (`GmailWatcher.mark_as_processed`). -/
structure MailboxState where
  consumed : List String
deriving DecidableEq, Repr

/-- The per-payment loop of `PaymentProcessor.process_new_payments`,
applied to the already-fetched batch: a normally returned result is
appended to `processed` and the email marked consumed; a raised
`ValidationError` is recorded in `errors` and the email still marked
consumed; any other exception is recorded in `errors` and the email is
NOT marked consumed. -/
def process_new_payments (ninja : NinjaOracle) (today : PDate) :
    List ParsedInteracEmail → DBState → MailboxState →
    BatchResults × DBState × MailboxState
  | [], db, mb => (⟨[], [], []⟩, db, mb)
  | p :: rest, db, mb =>
      match process_single_payment ninja today db p with
      | (.skipped reason eid, db') =>
          let mb' : MailboxState := ⟨p.email_id :: mb.consumed⟩
          let (res, db'', mb'') := process_new_payments ninja today rest db' mb'
          (⟨.skipped reason eid :: res.processed, res.errors, res.skipped⟩, db'', mb'')
      | (.success t a per inv pid, db') =>
          let mb' : MailboxState := ⟨p.email_id :: mb.consumed⟩
          let (res, db'', mb'') := process_new_payments ninja today rest db' mb'
          (⟨.success t a per inv pid :: res.processed, res.errors, res.skipped⟩, db'', mb'')
      | (.validationError msg, db') =>
          let mb' : MailboxState := ⟨p.email_id :: mb.consumed⟩
          let (res, db'', mb'') := process_new_payments ninja today rest db' mb'
          (⟨res.processed,
            ⟨some p.email_id, some p.sender_name, some p.amount, msg⟩ :: res.errors,
            res.skipped⟩, db'', mb'')
      | (.unexpectedError msg, db') =>
          let (res, db'', mb'') := process_new_payments ninja today rest db' mb
          (⟨res.processed,
            ⟨some p.email_id, some p.sender_name, none, "Unexpected error: " ++ msg⟩ :: res.errors,
            res.skipped⟩, db'', mb'')

/-! The poll cycle fetch (`GmailWatcher.fetch_new_payments`). -/

/-- A raw mailbox message as handed to the parser: identifier, subject
header, extracted body, parsed `Date` header. -/
structure RawMessage where
  id : String
  subject : String
  body : String
  date : PDate
deriving DecidableEq, Repr

/-- `GmailWatcher.fetch_new_payments`: the Gmail
`users().messages().list(..., maxResults=20)` call returns at most 20
message references (modelled by `take 20` on the matching mailbox
messages); each is fetched and parsed, and only successfully parsed
ones are kept. -/
def fetch_new_payments (mailbox : List RawMessage) : List ParsedInteracEmail :=
  (mailbox.take 20).filterMap fun m =>
    parse_interac_email m.id m.subject m.body m.date

/-! Concrete fixtures used by the end-to-end and boundary theorems. -/

/-- The stored tenant of the end-to-end scenario. -/
def johnDoe : Tenant :=
  { id := "t1", name := "John Doe", email := "john@example.com"
    monthly_rent := 1200, parking_fee := some 150
    next_due_month := some "2024-11", last_invoice_no := some 5
    invoice_ninja_client_id := none }

/-- Database with the scenario tenant and no payment records. -/
def dbC1 : DBState := ⟨[johnDoe], []⟩

/-- A working invoicing collaborator returning fixed identifiers. -/
def ninjaHappy : NinjaOracle := fun _ _ _ _ =>
  .ok ⟨some "c1", some "i1", some "INV-6"⟩

def subjC1 : String :=
  "Interac e-Transfer: You've received $1,350.00 from John Doe"

def bodyC1 : String := "Message: November rent Date: November 1, 2024"

/-- What the parser produces for the scenario notification. -/
def parsedC1 : ParsedInteracEmail :=
  { email_id := "email-1", sender_name := "John Doe", amount := 1350
    payment_date := ⟨2024, 11, 1⟩, message_line := some "November rent"
    raw_subject := subjC1 }

set_option maxRecDepth 10000 in
/-- C1: the end-to-end scenario — the notification parses to the
expected structured payment; processing it against the stored John Doe
record (rent 1200 + parking 150, due "2024-11", sequence 5, no prior
payment with this email id) returns a Success outcome with period
"November", and the tenant row ends with `last_invoice_no = 6` and
`next_due_month = "2024-12"`. -/
theorem claim_C1_end_to_end :
    parse_interac_email "email-1" subjC1 bodyC1 ⟨2024, 11, 2⟩ = some parsedC1
    ∧ (process_single_payment ninjaHappy ⟨2024, 11, 2⟩ dbC1 parsedC1).1 =
        .success "John Doe" 1350 "November" (some "INV-6") 0
    ∧ (process_single_payment ninjaHappy ⟨2024, 11, 2⟩ dbC1 parsedC1).2.tenants =
        [{ johnDoe with
            last_invoice_no := some 6
            next_due_month := some "2024-12"
            invoice_ninja_client_id := some "c1" }] := by
  refine ⟨?_, ?_, ?_⟩ <;> with_unfolding_all decide

/-- C10: a single poll cycle hands the workflow at most 20
notifications — `fetch_new_payments` caps the mailbox search at 20
results and parsing only ever drops messages. -/
theorem claim_C10_batch_at_most_20 (mailbox : List RawMessage) :
    (fetch_new_payments mailbox).length ≤ 20 := by
  unfold fetch_new_payments
  exact le_trans (List.length_filterMap_le _ _) (List.length_take_le _ _)

/-- C7: amount validation succeeds exactly when the received amount is
within the 0.01 tolerance of monthly rent plus parking fee (taken as 0
when unset), in either direction: past the duplicate check and tenant
lookup, the outcome is a ValidationError iff
`|received - expected| > 0.01`; concretely, against expected 1350.00 a
received 1350.01 passes and 1350.02 is rejected. -/
theorem claim_C7_amount_tolerance :
    (∀ (ninja : NinjaOracle) (today : PDate) (db : DBState)
        (p : ParsedInteracEmail) (t : Tenant),
        check_duplicate_payment db p.email_id = false →
        get_tenant_by_name db p.sender_name = some t →
        ((process_single_payment ninja today db p).1.isValidationError = true ↔
          |p.amount - (t.monthly_rent + t.parking_fee.getD 0)| > 1 / 100))
    ∧ (process_single_payment ninjaHappy ⟨2024, 11, 2⟩ dbC1
        { parsedC1 with amount := 1350 + 1 / 100 }).1.isValidationError = false
    ∧ (process_single_payment ninjaHappy ⟨2024, 11, 2⟩ dbC1
        { parsedC1 with amount := 1350 + 2 / 100 }).1.isValidationError = true := by
  refine ⟨?_, ?_, ?_⟩
  · intro ninja today db p t hdup hten
    by_cases hm : (100 : ℚ)⁻¹ < |p.amount - (t.monthly_rent + t.parking_fee.getD 0)|
    · simp [process_single_payment, hdup, hten, AMOUNT_TOLERANCE, hm,
        SingleOutcome.isValidationError, one_div]
    · cases hninja : ninja t p.amount (determine_period p t) p.payment_date with
      | error e =>
          simp [process_single_payment, hdup, hten, AMOUNT_TOLERANCE, hm, hninja,
            SingleOutcome.isValidationError, one_div]
      | ok res =>
          simp [process_single_payment, hdup, hten, AMOUNT_TOLERANCE, hm, hninja,
            SingleOutcome.isValidationError, one_div]
  · with_unfolding_all decide
  · with_unfolding_all decide

/-- C7 witness: the tolerance characterization applied at the concrete
scenario (received 1350.00, expected 1350.00). -/
theorem claim_C7_witness :
    (process_single_payment ninjaHappy ⟨2024, 11, 2⟩ dbC1 parsedC1).1.isValidationError
      = false := by
  have h := claim_C7_amount_tolerance.1 ninjaHappy ⟨2024, 11, 2⟩ dbC1 parsedC1 johnDoe
    (by with_unfolding_all decide) (by with_unfolding_all decide)
  rw [Bool.eq_false_iff]
  intro hx
  have hm := h.mp hx
  rw [show (johnDoe.monthly_rent + johnDoe.parking_fee.getD 0) = 1350 by
    simp [johnDoe]; norm_num] at hm
  have : |parsedC1.amount - 1350| = 0 := by
    simp [parsedC1]
  rw [this] at hm
  norm_num at hm

/-! Batch-level behaviour (`process_new_payments`). -/

/-- The `skipped` list of the batch summary is never populated: no code
path appends to it. -/
theorem process_new_payments_skipped_nil (ninja : NinjaOracle) (today : PDate) :
    ∀ (l : List ParsedInteracEmail) (db : DBState) (mb : MailboxState),
      (process_new_payments ninja today l db mb).1.skipped = [] := by
  intro l
  induction l with
  | nil => intro db mb; rfl
  | cons p rest ih =>
      intro db mb
      rcases hps : process_single_payment ninja today db p with ⟨out, db'⟩
      cases out <;> simp [process_new_payments, hps, ih]

/-- An existing payment record sharing `parsedC1`'s email id. -/
def recDup : PaymentRecord :=
  { id := 0, tenant_id := "t1", amount := 1350, payment_date := ⟨2024, 10, 1⟩
    period := "October", email_id := some "email-1"
    invoice_ninja_invoice_id := none, email_sent := true, notes := "" }

/-- Database in which `parsedC1` is a duplicate. -/
def dbDup : DBState := ⟨[johnDoe], [recDup]⟩

/-- C3 counterexample: for a duplicate notification the batch summary
carries the item in its `processed` list (as the returned
status-"skipped" dictionary), not in the `skipped` list, which stays
empty — the claim instead requires it to appear in the skipped list and
not among processed. -/
theorem claim_C3_counterexample :
    (process_new_payments ninjaHappy ⟨2024, 11, 2⟩ [parsedC1] dbDup ⟨[]⟩).1.processed =
        [.skipped "duplicate" "email-1"]
    ∧ (process_new_payments ninjaHappy ⟨2024, 11, 2⟩ [parsedC1] dbDup ⟨[]⟩).1.skipped = [] := by
  constructor <;> with_unfolding_all decide

/-- C3 (amended): a duplicate `email_id` yields the status-"skipped"
result with reason duplicate, leaves the database (tenant ledger and
payment rows) unchanged, is marked consumed, and the batch summary
records the item in its `processed` list while the `skipped` list is
always empty. -/
theorem claim_C3_amended_duplicate (ninja : NinjaOracle) (today : PDate)
    (db : DBState) (p : ParsedInteracEmail) (rest : List ParsedInteracEmail)
    (mb : MailboxState)
    (hdup : check_duplicate_payment db p.email_id = true) :
    process_single_payment ninja today db p = (.skipped "duplicate" p.email_id, db)
    ∧ process_new_payments ninja today (p :: rest) db mb =
        ((⟨SingleOutcome.skipped "duplicate" p.email_id ::
             (process_new_payments ninja today rest db ⟨p.email_id :: mb.consumed⟩).1.processed,
           (process_new_payments ninja today rest db ⟨p.email_id :: mb.consumed⟩).1.errors,
           (process_new_payments ninja today rest db ⟨p.email_id :: mb.consumed⟩).1.skipped⟩ :
             BatchResults),
         (process_new_payments ninja today rest db ⟨p.email_id :: mb.consumed⟩).2)
    ∧ (process_new_payments ninja today (p :: rest) db mb).1.skipped = [] := by
  have hsingle : process_single_payment ninja today db p =
      (.skipped "duplicate" p.email_id, db) := by
    simp [process_single_payment, hdup]
  exact ⟨hsingle, by simp [process_new_payments, hsingle],
    process_new_payments_skipped_nil ninja today _ _ _⟩

/-- C3 witness: the amended statement applied at the concrete duplicate
scenario. -/
theorem claim_C3_witness :
    process_single_payment ninjaHappy ⟨2024, 11, 2⟩ dbDup parsedC1 =
      (.skipped "duplicate" "email-1", dbDup) :=
  (claim_C3_amended_duplicate ninjaHappy ⟨2024, 11, 2⟩ dbDup parsedC1 [] ⟨[]⟩
    (by with_unfolding_all decide)).1

/-- An invoicing collaborator that raises. -/
def ninjaBoom : NinjaOracle := fun _ _ _ _ => .error "boom"

/-- C2: when the invoicing collaborator raises for a payment that
passed the duplicate check, tenant lookup and amount validation, the
item's outcome is the generic (Fatal) classification, the database is
untouched (no payment row, tenant ledger unchanged), the item is
recorded as an unexpected error in the batch summary, the email is not
marked consumed, and the rest of the batch continues from the same
state. -/
theorem claim_C2_fatal_path (ninja : NinjaOracle) (today : PDate) (db : DBState)
    (p : ParsedInteracEmail) (rest : List ParsedInteracEmail) (mb : MailboxState)
    (t : Tenant) (e : String)
    (hdup : check_duplicate_payment db p.email_id = false)
    (hten : get_tenant_by_name db p.sender_name = some t)
    (hamt : |p.amount - (t.monthly_rent + t.parking_fee.getD 0)| ≤ 1 / 100)
    (hninja : ninja t p.amount (determine_period p t) p.payment_date = .error e) :
    process_single_payment ninja today db p = (.unexpectedError e, db)
    ∧ process_new_payments ninja today (p :: rest) db mb =
        ((⟨(process_new_payments ninja today rest db mb).1.processed,
           ⟨some p.email_id, some p.sender_name, none, "Unexpected error: " ++ e⟩ ::
             (process_new_payments ninja today rest db mb).1.errors,
           (process_new_payments ninja today rest db mb).1.skipped⟩ : BatchResults),
         (process_new_payments ninja today rest db mb).2) := by
  have hm : ¬ (100 : ℚ)⁻¹ < |p.amount - (t.monthly_rent + t.parking_fee.getD 0)| := by
    rw [← one_div]; exact not_lt.mpr hamt
  have hsingle : process_single_payment ninja today db p = (.unexpectedError e, db) := by
    simp [process_single_payment, hdup, hten, AMOUNT_TOLERANCE, hm, hninja, one_div]
  exact ⟨hsingle, by simp [process_new_payments, hsingle]⟩

/-- C2 witness: the fatal path at the concrete scenario with a raising
invoicing collaborator. -/
theorem claim_C2_witness :
    process_single_payment ninjaBoom ⟨2024, 11, 2⟩ dbC1 parsedC1 =
      (.unexpectedError "boom", dbC1) :=
  (claim_C2_fatal_path ninjaBoom ⟨2024, 11, 2⟩ dbC1 parsedC1 [] ⟨[]⟩ johnDoe "boom"
    (by with_unfolding_all decide) (by with_unfolding_all decide)
    (by simp [parsedC1, johnDoe]; norm_num [abs_le]) rfl).1

/-- C6: a tenant-lookup miss or an amount mismatch makes the item's
outcome a ValidationError with a human-readable reason, records it in
the batch summary's `errors`, marks the source email consumed, and the
remaining notifications continue from the unchanged database. -/
theorem claim_C6_validation_failure (ninja : NinjaOracle) (today : PDate)
    (db : DBState) (p : ParsedInteracEmail) (rest : List ParsedInteracEmail)
    (mb : MailboxState)
    (hdup : check_duplicate_payment db p.email_id = false)
    (hval : get_tenant_by_name db p.sender_name = none ∨
        ∃ t, get_tenant_by_name db p.sender_name = some t ∧
          1 / 100 < |p.amount - (t.monthly_rent + t.parking_fee.getD 0)|) :
    ∃ msg,
      process_single_payment ninja today db p = (.validationError msg, db)
      ∧ process_new_payments ninja today (p :: rest) db mb =
          ((⟨(process_new_payments ninja today rest db ⟨p.email_id :: mb.consumed⟩).1.processed,
             ⟨some p.email_id, some p.sender_name, some p.amount, msg⟩ ::
               (process_new_payments ninja today rest db ⟨p.email_id :: mb.consumed⟩).1.errors,
             (process_new_payments ninja today rest db ⟨p.email_id :: mb.consumed⟩).1.skipped⟩ :
               BatchResults),
           (process_new_payments ninja today rest db ⟨p.email_id :: mb.consumed⟩).2) := by
  have hsingle : ∃ msg,
      process_single_payment ninja today db p = (.validationError msg, db) := by
    rcases hval with hnone | ⟨t, hten, hm⟩
    · exact ⟨"Tenant not found in database: " ++ p.sender_name,
        by simp [process_single_payment, hdup, hnone]⟩
    · have hm' : (100 : ℚ)⁻¹ < |p.amount - (t.monthly_rent + t.parking_fee.getD 0)| := by
        rw [← one_div]; exact hm
      exact ⟨"Amount mismatch: received $" ++ fmtQ2 p.amount ++ ", expected $" ++
          fmtQ2 (t.monthly_rent + t.parking_fee.getD 0) ++ " (rent: $" ++
          fmtQ2 t.monthly_rent ++ " + parking: $" ++ fmtQ2 (t.parking_fee.getD 0) ++ ")",
        by simp [process_single_payment, hdup, hten, AMOUNT_TOLERANCE, hm', one_div]⟩
  obtain ⟨msg, hsingle⟩ := hsingle
  exact ⟨msg, hsingle, by simp [process_new_payments, hsingle]⟩

/-- A notification from a sender with no matching tenant record. -/
def parsedJane : ParsedInteracEmail :=
  { parsedC1 with sender_name := "Jane Roe" }

/-- C6 witness: the validation-failure path at a concrete
unknown-sender notification. -/
theorem claim_C6_witness :
    ∃ msg,
      process_single_payment ninjaHappy ⟨2024, 11, 2⟩ dbC1 parsedJane =
        (.validationError msg, dbC1)
      ∧ process_new_payments ninjaHappy ⟨2024, 11, 2⟩ [parsedJane] dbC1 ⟨[]⟩ =
          ((⟨(process_new_payments ninjaHappy ⟨2024, 11, 2⟩ [] dbC1
                ⟨[parsedJane.email_id]⟩).1.processed,
             ⟨some parsedJane.email_id, some parsedJane.sender_name,
               some parsedJane.amount, msg⟩ ::
               (process_new_payments ninjaHappy ⟨2024, 11, 2⟩ [] dbC1
                 ⟨[parsedJane.email_id]⟩).1.errors,
             (process_new_payments ninjaHappy ⟨2024, 11, 2⟩ [] dbC1
               ⟨[parsedJane.email_id]⟩).1.skipped⟩ : BatchResults),
           (process_new_payments ninjaHappy ⟨2024, 11, 2⟩ [] dbC1
             ⟨[parsedJane.email_id]⟩).2) :=
  claim_C6_validation_failure ninjaHappy ⟨2024, 11, 2⟩ dbC1 parsedJane [] ⟨[]⟩
    (by with_unfolding_all decide) (Or.inl (by with_unfolding_all decide))

/-! C5: tenant lookup semantics. -/

/-- The sender name contains a metacharacter of the deployed lookup:
`%`, `_` and `\` are ILIKE metacharacters, and `*` is rewritten to `%`
by PostgREST before the pattern reaches ILIKE. -/
def hasWildcard (l : List Char) : Bool :=
  l.any (fun c => c == '%' || c == '_' || c == '\\' || c == '*')

/-- On a metacharacter-free sender name the PostgREST rewrite is inert. -/
theorem postgrestStar_of_no_star :
    ∀ l : List Char, hasWildcard l = false → postgrestStar l = l := by
  intro l
  induction l with
  | nil => intro _; rfl
  | cons c rest ih =>
      intro hw
      simp only [hasWildcard, List.any_cons, Bool.or_eq_false_iff] at hw
      have hstar : (c == '*') = false := hw.1.2
      have hrest : hasWildcard rest = false := by
        simp only [hasWildcard]
        exact hw.2
      unfold postgrestStar at ih ⊢
      rw [List.map_cons, if_neg (by rw [hstar]; exact Bool.false_ne_true), ih hrest]

/-- An ILIKE pattern free of the metacharacters matches exactly the
strings equal to it up to ASCII letter case. -/
theorem ilikeMatch_no_wildcard :
    ∀ (p t : List Char), hasWildcard p = false →
      (ilikeMatch p t = true ↔ p.map asciiLower = t.map asciiLower) := by
  intro p
  induction p with
  | nil =>
      intro t _
      cases t <;> simp [ilikeMatch]
  | cons c p ih =>
      intro t hw
      simp only [hasWildcard, List.any_cons, Bool.or_eq_false_iff] at hw
      have hpc : (c == '%') = false := hw.1.1.1.1
      have hu : (c == '_') = false := hw.1.1.1.2
      have hb : (c == '\\') = false := hw.1.1.2
      have hrest : hasWildcard p = false := by
        simp only [hasWildcard]
        exact hw.2
      cases t with
      | nil =>
          rw [ilikeMatch.eq_def]
          simp [hpc, hu, hb]
      | cons a t' =>
          rw [ilikeMatch.eq_def]
          simp only [hpc, hu, hb, Bool.false_eq_true, if_false,
            Bool.false_or, List.map_cons, eqCI]
          rw [Bool.and_eq_true, beq_iff_eq, ih t' hrest]
          constructor
          · rintro ⟨h1, h2⟩; rw [h1, h2]
          · intro h
            injection h with h1 h2
            exact ⟨h1, h2⟩

/-- C5 counterexample: with the stored tenant "John Doe", the sender
names "J%" (an ILIKE wildcard) and "J*" (rewritten to "J%" by
PostgREST) are both found by the lookup although neither equals
"John Doe" up to letter case — the lookup is pattern matching, not
case-insensitive exact matching. -/
theorem claim_C5_counterexample :
    get_tenant_by_name dbC1 "J%" = some johnDoe
    ∧ "J%".data.map asciiLower ≠ "John Doe".data.map asciiLower
    ∧ get_tenant_by_name dbC1 "J*" = some johnDoe
    ∧ "J*".data.map asciiLower ≠ "John Doe".data.map asciiLower := by
  refine ⟨?_, ?_, ?_, ?_⟩ <;> with_unfolding_all decide

/-- C5 (amended): for sender names containing none of `%`, `_`, `\`
(ILIKE metacharacters) and `*` (rewritten to `%` by PostgREST), the
lookup returns a tenant iff some stored tenant's display name equals
the sender name up to ASCII letter case; names containing any of these
undergo pattern matching and can match non-equal names. -/
theorem claim_C5_amended_lookup (db : DBState) (name : String)
    (hw : hasWildcard name.data = false) :
    (get_tenant_by_name db name).isSome = true ↔
      ∃ t ∈ db.tenants, name.data.map asciiLower = t.name.data.map asciiLower := by
  unfold get_tenant_by_name
  rw [postgrestStar_of_no_star name.data hw]
  rw [List.find?_isSome]
  constructor
  · rintro ⟨t, hmem, hp⟩
    exact ⟨t, hmem, (ilikeMatch_no_wildcard name.data t.name.data hw).mp hp⟩
  · rintro ⟨t, hmem, heq⟩
    exact ⟨t, hmem, (ilikeMatch_no_wildcard name.data t.name.data hw).mpr heq⟩

/-- C5 witness: the amended characterization applied at the wildcard-free
sender name "john doe" against the stored "John Doe". -/
theorem claim_C5_witness :
    (get_tenant_by_name dbC1 "john doe").isSome = true :=
  (claim_C5_amended_lookup dbC1 "john doe" (by decide)).mpr
    ⟨johnDoe, by decide, by decide⟩

/-! C8: sign of parsed amounts. -/

/-- Any property of a matcher's outputs transfers to `searchPos`. -/
theorem searchPos_some {α : Type} (f : List Char → Option α) (P : α → Prop)
    (hf : ∀ l r, f l = some r → P r) :
    ∀ l r, searchPos f l = some r → P r := by
  intro l
  induction l with
  | nil => intro r h; exact hf [] r h
  | cons c rest ih =>
      intro r h
      simp only [searchPos] at h
      split at h
      · next x heq =>
          cases h
          exact hf _ _ heq
      · next heq => exact ih r h

theorem ratOfParts_nonneg (ds : List Char) (d1 d2 : Char) : 0 ≤ ratOfParts ds d1 d2 := by
  unfold ratOfParts
  positivity

theorem amountAt_nonneg : ∀ l q, amountAt l = some q → 0 ≤ q := by
  intro l q h
  unfold amountAt at h
  cases hm : matchCI "you've received $".data l with
  | none => rw [hm] at h; simp at h
  | some r =>
      rw [hm] at h
      simp only [Option.some_bind] at h
      by_cases hrun : (r.takeWhile isDigitComma).isEmpty = true
      · rw [if_pos hrun] at h; simp at h
      · rw [if_neg hrun] at h
        split at h
        · next d1 d2 rest =>
            split at h
            · next =>
                rw [Option.some_inj] at h
                rw [← h]
                exact ratOfParts_nonneg _ _ _
            · simp at h
        · simp at h

/-- C8 (amended): every ParsedPayment the parser constructs has a
non-negative amount — the extracted decimal is unsigned, but it can be
zero, so `amount ≥ 0` is the invariant the parser actually guarantees
(not `amount > 0`). -/
theorem claim_C8_amended_amount_nonneg (message_id subject body : String)
    (d : PDate) (r : ParsedInteracEmail)
    (h : parse_interac_email message_id subject body d = some r) :
    0 ≤ r.amount := by
  unfold parse_interac_email at h
  cases hA : searchAmount subject.data with
  | none => rw [hA] at h; simp at h
  | some q =>
      rw [hA] at h
      cases hF : searchFrom subject.data with
      | none => rw [hF] at h; simp at h
      | some g =>
          rw [hF] at h
          rw [Option.some_inj] at h
          have hq : 0 ≤ q :=
            searchPos_some amountAt (fun x => 0 ≤ x) amountAt_nonneg
              subject.data q hA
          rw [← h]
          exact hq

/-- The $0.00 notification. -/
def subjZero : String :=
  "Interac e-Transfer: You've received $0.00 from John Doe"

/-- What the parser produces for the $0.00 notification. -/
def parsedZero : ParsedInteracEmail :=
  { email_id := "m1", sender_name := "John Doe", amount := 0
    payment_date := ⟨2024, 1, 1⟩, message_line := none, raw_subject := subjZero }

/-- C8 counterexample: a "$0.00" notification parses to a ParsedPayment
whose amount is 0, refuting the claimed invariant `amount > 0`. -/
theorem claim_C8_counterexample :
    parse_interac_email "m1" subjZero "" ⟨2024, 1, 1⟩ = some parsedZero
    ∧ ¬ (0 < parsedZero.amount) := by
  constructor
  · with_unfolding_all decide
  · simp [parsedZero]

/-- C8 witness: the non-negativity invariant applied at the scenario
notification. -/
theorem claim_C8_witness : 0 ≤ parsedC1.amount :=
  claim_C8_amended_amount_nonneg "email-1" subjC1 bodyC1 ⟨2024, 11, 2⟩ parsedC1
    (by with_unfolding_all decide)

/-! C9: period resolution. -/

/-- Spec-side description of the Period Resolver (§4.4), with rule 1
amended to what the code does: remove the exact substrings "rent" and
then "Rent" (other casings are kept), trim; rules tried in priority
order, first applicable wins. -/
def resolve_spec (payment : ParsedInteracEmail) (tenant : Tenant) : String :=
  let rule1 : Option String :=
    payment.message_line.bind fun m =>
      if m.isEmpty then none
      else
        let cleaned :=
          String.mk (trimWs (replaceSub "Rent".data (replaceSub "rent".data m.data)))
        if cleaned.isEmpty then none else some cleaned
  let rule2 : Option String :=
    tenant.next_due_month.bind fun nd =>
      if nd.isEmpty then none
      else (ymParse nd).map fun ym => fmtMonthYear ⟨ym.1, ym.2, 1⟩
  (rule1.orElse fun _ => rule2).getD (fmtMonthYear payment.payment_date)

/-- Tenant whose ledger says the October period is due next. -/
def tenantOct : Tenant := { johnDoe with next_due_month := some "2024-10" }

/-- C9 counterexample: removal of "rent" from the message line is not
case-insensitive — for the message line "November RENT" the code keeps
the period "November RENT", where the claim requires "November". -/
theorem claim_C9_counterexample :
    determine_period { parsedC1 with message_line := some "November RENT" } tenantOct =
      "November RENT"
    ∧ "November RENT" ≠ "November" := by
  constructor
  · with_unfolding_all decide
  · decide

/-- C9 (amended): period resolution follows the stated priority with
rule 1 removing the exact substrings "rent" and "Rent" (not other
casings): the implementation equals the spec-side resolver for every
payment and tenant. -/
theorem claim_C9_amended_period_resolution (p : ParsedInteracEmail) (t : Tenant) :
    determine_period p t = resolve_spec p t := by
  unfold determine_period resolve_spec
  cases hm : p.message_line with
  | none =>
      simp only [Option.bind_eq_bind, Option.none_bind, Option.orElse, Option.getD]
      cases hnd : t.next_due_month with
      | none => rfl
      | some nd =>
          by_cases hne : nd.isEmpty <;> simp [hne] <;>
            cases hy : ymParse nd <;> simp [hy]
  | some m =>
      by_cases hme : m.isEmpty
      · simp only [hme, Bool.not_true, Bool.false_eq_true, if_false, Option.some_bind,
          if_pos hme]
        simp only [Option.none_orElse, Option.orElse, Option.getD]
        cases hnd : t.next_due_month with
        | none => rfl
        | some nd =>
            by_cases hne : nd.isEmpty <;> simp [hne] <;>
              cases hy : ymParse nd <;> simp [hy]
      · by_cases hcl :
          (String.mk (trimWs (replaceSub "Rent".data (replaceSub "rent".data m.data)))).isEmpty
        · simp only [hme, hcl, Option.some_bind, if_neg, Bool.not_false]
          simp only [Bool.false_eq_true, if_false, if_pos hcl]
          simp only [Option.none_orElse, Option.orElse, Option.getD]
          cases hnd : t.next_due_month with
          | none => simp [hcl]
          | some nd =>
              by_cases hne : nd.isEmpty <;> simp [hcl, hne] <;>
                cases hy : ymParse nd <;> simp [hy]
        · simp [hme, hcl, Option.orElse, Option.getD]

/-! C4: message-line extraction. -/

/-- The captured lazy group consists of non-`d`/`D` characters only. -/
theorem grp_noD : ∀ u g, grp u = some g → ∀ c ∈ g, isDCi c = false := by
  intro u
  induction u with
  | nil => intro g h; simp [grp] at h
  | cons c rest ih =>
      intro g h
      simp only [grp] at h
      by_cases hd : isDCi c = true
      · rw [if_pos hd] at h; simp at h
      · rw [if_neg hd] at h
        by_cases hs : stopAfterWs rest = true
        · rw [if_pos hs] at h
          rw [Option.some_inj] at h
          intro x hx
          rw [← h] at hx
          simp only [List.mem_singleton] at hx
          rw [hx]
          exact Bool.eq_false_iff.mpr hd
        · rw [if_neg hs] at h
          rcases Option.map_eq_some'.mp h with ⟨g', hg', rfl⟩
          intro x hx
          rcases List.mem_cons.mp hx with rfl | hx'
          · exact Bool.eq_false_iff.mpr hd
          · exact ih g' hg' x hx'

theorem tryMsgWs_noD : ∀ j t g, tryMsgWs j t = some g → ∀ c ∈ g, isDCi c = false := by
  intro j
  induction j with
  | zero => intro t g h; exact grp_noD t g h
  | succ j ih =>
      intro t g h
      simp only [tryMsgWs] at h
      split at h
      · next x heq =>
          cases h
          exact grp_noD _ _ heq
      · next heq => exact ih t g h

theorem msgAt_noD : ∀ l g, msgAt l = some g → ∀ c ∈ g, isDCi c = false := by
  intro l g h
  unfold msgAt at h
  cases hm : matchCI "message:".data l with
  | none => rw [hm] at h; simp at h
  | some t =>
      rw [hm] at h
      simp only [Option.some_bind] at h
      exact tryMsgWs_noD _ t g h

theorem trimWs_subset : ∀ (l : List Char), ∀ c ∈ trimWs l, c ∈ l := by
  intro l c hc
  unfold trimWs at hc
  rw [List.mem_reverse] at hc
  have h1 := (List.dropWhile_sublist (l := (l.dropWhile isWs).reverse) (p := isWs)).subset hc
  rw [List.mem_reverse] at h1
  exact (List.dropWhile_sublist (l := l) (p := isWs)).subset h1

/-- The message line contains no letter `d` in either case. -/
def noLetterD (s : String) : Bool := s.data.all fun c => !(isDCi c)

/-- C4 (amended): message-line extraction captures the text following
"Message:" up to the next stop token, trimmed, only when that text
contains no letter `d`/`D` (the compiled class `[^D]` under IGNORECASE
excludes both); every captured message line is d-free, and on the
scenario body the d-free text "November rent" is captured. -/
theorem claim_C4_amended_message_line :
    (∀ (bodyClean : List Char) (m : String),
        extractMessageLine bodyClean = some m → noLetterD m = true)
    ∧ extractMessageLine (canonicalizeBody bodyC1) = some "November rent" := by
  constructor
  · intro bodyClean m h
    unfold extractMessageLine at h
    rcases Option.map_eq_some'.mp h with ⟨g, hg, rfl⟩
    have hchars : ∀ c ∈ g, isDCi c = false :=
      searchPos_some msgAt (fun x => ∀ c ∈ x, isDCi c = false) msgAt_noD bodyClean g hg
    unfold noLetterD
    rw [List.all_eq_true]
    intro c hc
    have : c ∈ g := trimWs_subset g c hc
    rw [hchars c this]
    rfl
  · with_unfolding_all decide

/-- C4 counterexample: for the body whose message text is
"December rent" the extraction yields no match at all (the claim
requires it to capture "December rent"). -/
theorem claim_C4_counterexample :
    extractMessageLine
      (canonicalizeBody "Message: December rent Date: November 1, 2024") = none := by
  with_unfolding_all decide

/-- C4 witness: the d-free invariant applied to the captured scenario
message line. -/
theorem claim_C4_witness : noLetterD "November rent" = true :=
  claim_C4_amended_message_line.1 (canonicalizeBody bodyC1) "November rent"
    claim_C4_amended_message_line.2

end MyPropMate
